import Mathlib

/-!
Shallow embedding of the smart-calendar repository (dengminhao/smart-calendar).

The embedded code is the reconciliation and sync-recovery logic of
`src/App.tsx` (`handleExecuteAction`, `performSync`, `updateLocalState`,
`handleAnalyze`, `handleSyncFromCloud`), the AI service of
`src/unnamed/part_000` (`analyzeMessage`, `fixActionWithAI`) and the
`CalendarService` of `src/unnamed/part_002` (`formatTime`, `createEvent`,
`updateEvent`, `moveEvent`, `listEvents`, `fetchWithAuth`).

Network calls (remote calendar REST operations and AI completions) and
browser clock / UUID generation are modelled by an explicit environment
`Env` of oracle functions returning `Except String` values (an exception is
a thrown `Error` carrying its message string), and by explicit freshness
parameters.  JavaScript `undefined`/absent object fields are modelled with
`Option`; the JS `||` fallback (which also treats the empty string as
falsy) is embedded as `jsOrS`.
-/

namespace SmartCalendar

/-- `ActionType` enum from `types.ts` (values used throughout `App.tsx`). -/
inductive ActionType where
  | CREATE | UPDATE | MOVE | IGNORE
deriving DecidableEq, Repr

/-- `CalendarEventData`: the event-field payload produced by the AI and sent
to the remote calendar.  Absent fields are `none`. -/
structure CalendarEventData where
  summary : Option String := none
  description : Option String := none
  location : Option String := none
  startTime : Option String := none
  endTime : Option String := none
deriving DecidableEq, Repr

/-- `LocalEventRecord`: one entry of the locally persisted ledger. -/
structure LocalEventRecord where
  localId : String
  gcalId : String
  summary : Option String := none
  description : Option String := none
  location : Option String := none
  startTime : Option String := none
  endTime : Option String := none
  lastUpdated : String
  originalText : Option String := none
  synced : Bool
  error : Option String := none
deriving DecidableEq, Repr

/-- `ProposedAction` as produced by the AI step and enriched by the
duplicate-detection step of `handleAnalyze`. -/
structure ProposedAction where
  type : ActionType
  confidenceScore : ℚ
  reasoning : String
  targetLocalId : Option String := none
  eventData : Option CalendarEventData := none
  sourceCalendarId : Option String := none
  sourceEventId : Option String := none
deriving DecidableEq, Repr

/-- The `start`/`end` object of a Google event resource returned by
`listEvents` (it has either a `dateTime` or a `date` field). -/
structure GEventStart where
  dateTime : Option String := none
  date : Option String := none
deriving DecidableEq, Repr

/-- A remote event as returned by `CalendarService.listEvents`.
`finish` embeds the JSON field named `end` (a Lean keyword). -/
structure GEvent where
  id : String
  summary : Option String := none
  description : Option String := none
  location : Option String := none
  start : GEventStart := {}
  finish : GEventStart := {}
deriving DecidableEq, Repr

/-- JavaScript `a || b` on string-or-undefined values: `a` unless it is
absent or the empty string (both falsy). -/
def jsOrS : Option String → Option String → Option String
  | some s, b => if s = "" then b else some s
  | none, b => b

/-- JavaScript truthiness of a string-or-undefined value. -/
def truthyS : Option String → Bool
  | some s => s ≠ ""
  | none => false

/-- JavaScript template interpolation of a possibly-undefined string
(`undefined` prints as the string "undefined"). -/
def jsShow (o : Option String) : String := o.getD "undefined"

/-- Object spread `\x7b ...base, ...patch \x7d` on event-data fields: a field
present in `patch` overrides the one of `base`. -/
def mergeData (base patch : CalendarEventData) : CalendarEventData where
  summary := patch.summary <|> base.summary
  description := patch.description <|> base.description
  location := patch.location <|> base.location
  startTime := patch.startTime <|> base.startTime
  endTime := patch.endTime <|> base.endTime

/-- The event-data fields of a ledger record (what the spread of a
`LocalEventRecord` contributes to a `CalendarEventData`). -/
def toEventData (r : LocalEventRecord) : CalendarEventData where
  summary := r.summary
  description := r.description
  location := r.location
  startTime := r.startTime
  endTime := r.endTime

/-- Prefix test on character lists (kernel-reducible). -/
def isPrefixOfCL : List Char → List Char → Bool
  | [], _ => true
  | _ :: _, [] => false
  | c :: cs, d :: ds => c = d && isPrefixOfCL cs ds

/-- JavaScript `s.startsWith(pre)`. -/
def strStartsWith (s pre : String) : Bool := isPrefixOfCL pre.data s.data

/-- Substring test (haystack, needle) on character lists. -/
def containsSub : List Char → List Char → Bool
  | [], n => n.isEmpty
  | h :: hs, n => isPrefixOfCL n (h :: hs) || containsSub hs n

/-- `e.message.includes('404')` from `performSync`. -/
def contains404 (m : String) : Bool := containsSub m.data "404".data

/-- Whitespace for the purposes of `String.prototype.trim`. -/
def isWsp (c : Char) : Bool := c = ' ' || c = '\t' || c = '\n' || c = '\r'

/-- JavaScript `s.trim()`. -/
def jsTrim (s : String) : String :=
  ⟨((s.data.dropWhile isWsp).reverse.dropWhile isWsp).reverse⟩

/-- One remote/AI call made during an action execution (for counting and
ordering the network interactions of `handleExecuteAction`). -/
inductive Call where
  | move (srcCal srcEvt destCal : String)
  | upd (cal evtId : String) (d : CalendarEventData)
  | create (cal : String) (d : CalendarEventData)
  | list (cal tmin tmax : String)
  | aifix (d : CalendarEventData) (msg : String)
deriving DecidableEq, Repr

/-- The environment of external effects: remote calendar REST calls,
AI calls, and the browser `Date` arithmetic (which depends on the local
time zone).  A `.error m` result is a thrown `Error` with message `m`. -/
structure Env where
  /-- `calendarService.isAuthenticated()` (field `accessToken` present). -/
  tokenPresent : Bool
  /-- `CalendarService.moveEvent srcCal srcEvt destCal`, returning the id of
  the moved event (`result.id`). -/
  moveEvent : String → String → String → Except String String
  /-- `CalendarService.updateEvent cal evtId data`. -/
  updateEvent : String → String → CalendarEventData → Except String Unit
  /-- `CalendarService.createEvent cal data`, returning `resp.id`. -/
  createEvent : String → CalendarEventData → Except String String
  /-- `CalendarService.listEvents cal timeMin timeMax`. -/
  listEvents : String → String → String → Except String (List GEvent)
  /-- `fixActionWithAI data errorMessage` from the AI service. -/
  fixWithAI : CalendarEventData → String → Except String CalendarEventData
  /-- `analyzeMessage message existingEvents` (provider call already
  resolved by config). -/
  analyze : String → List LocalEventRecord → Except String (List ProposedAction)
  /-- `new Date(s).getTime()`: milliseconds since epoch, `none` for an
  invalid date (NaN). -/
  timeMs : String → Option Int
  /-- The `(timeMin.toISOString(), timeMax.toISOString())` pair computed in
  `performSync` 404-recovery from `new Date(searchKey)` by `setHours(0,0,0,0)`
  and `setHours(23,59,59,999)` (local-time dependent). -/
  dayWindow : Option String → String × String
  /-- The `(min.toISOString(), max.toISOString())` pair computed in
  `handleAnalyze` from the start timestamp by `setHours(h-2)` / `setHours(h+2)`
  (local-time dependent). -/
  hourWindow : Int → String × String

/-- Freshness data consumed by one `handleExecuteAction` run:
`crypto.randomUUID()`, `new Date().toISOString()` and `Date.now()`. -/
structure Fresh where
  uuid : String
  nowIso : String
  nowMs : Int
deriving DecidableEq, Repr

/-- The React component state touched by the embedded handlers. -/
structure AppState where
  inputText : String
  proposedActions : List ProposedAction
  localEvents : List LocalEventRecord
  /-- Content serialized under `STORAGE_KEY` in browser-local storage
  (modelled as the deserialized ledger list). -/
  storage : List LocalEventRecord
  errorMsg : Option String
  managedCalendarId : String
  isAuthenticated : Bool
  autoTrust : Bool
deriving DecidableEq, Repr

/-- `performSync` of `App.tsx` (lines 266-295): create or update the remote
event, with the 404-recovery search.  Returns the resulting remote id (or
the thrown error) together with the list of remote calls made. -/
def performSync (env : Env) (mcal : String) (type : ActionType) (gcalId : String)
    (data : CalendarEventData) (targetRecord : Option LocalEventRecord) :
    Except String String × List Call :=
  let isManual := strStartsWith gcalId "manual-link-"
  if type = ActionType.CREATE ∨ (type = ActionType.UPDATE ∧ isManual) then
    match env.createEvent mcal data with
    | .ok id => (.ok id, [.create mcal data])
    | .error m => (.error m, [.create mcal data])
  else
    match env.updateEvent mcal gcalId data with
    | .ok _ => (.ok gcalId, [.upd mcal gcalId data])
    | .error m =>
      if contains404 m then
        let searchKey := jsOrS (targetRecord.bind (·.startTime)) data.startTime
        let w := env.dayWindow searchKey
        match env.listEvents mcal w.1 w.2 with
        | .error m2 => (.error m2, [.upd mcal gcalId data, .list mcal w.1 w.2])
        | .ok dayEvents =>
          let targetSummary := jsOrS (targetRecord.bind (·.summary)) data.summary
          match dayEvents.find? (fun e => e.summary == targetSummary) with
          | some mtch =>
            match env.updateEvent mcal mtch.id data with
            | .ok _ => (.ok mtch.id,
                [.upd mcal gcalId data, .list mcal w.1 w.2, .upd mcal mtch.id data])
            | .error m3 => (.error m3,
                [.upd mcal gcalId data, .list mcal w.1 w.2, .upd mcal mtch.id data])
          | none =>
            match env.createEvent mcal data with
            | .ok id => (.ok id,
                [.upd mcal gcalId data, .list mcal w.1 w.2, .create mcal data])
            | .error m3 => (.error m3,
                [.upd mcal gcalId data, .list mcal w.1 w.2, .create mcal data])
      else (.error m, [.upd mcal gcalId data])

/-- The `try` block of `handleExecuteAction` (lines 229-239): the MOVE
branch (move then metadata update) or `performSync`.  Returns
(thrown error if any, the value of the mutable `finalGCalId` after the
block, calls made).  On a throw after the move succeeded, `finalGCalId`
keeps the moved id, as in the source. -/
def firstAttempt (env : Env) (mcal : String) (action : ProposedAction)
    (gcal0 : String) (merged : CalendarEventData)
    (targetRecord : Option LocalEventRecord) :
    Option String × String × List Call :=
  if action.type = ActionType.MOVE ∧ truthyS action.sourceCalendarId ∧
      truthyS action.sourceEventId then
    let sc := action.sourceCalendarId.getD ""
    let se := action.sourceEventId.getD ""
    match env.moveEvent sc se mcal with
    | .error m => (some m, gcal0, [.move sc se mcal])
    | .ok newId =>
      match env.updateEvent mcal newId merged with
      | .ok _ => (none, newId, [.move sc se mcal, .upd mcal newId merged])
      | .error m => (some m, newId, [.move sc se mcal, .upd mcal newId merged])
  else
    match performSync env mcal action.type gcal0 merged targetRecord with
    | (.ok id, tr) => (none, id, tr)
    | (.error m, tr) => (some m, gcal0, tr)

/-- Outcome of the remote phase of `handleExecuteAction`: the final values
of the mutable locals `mergedEventData`, `finalGCalId`, `synced`,
`syncError`, the error message surfaced to the UI, and the calls made. -/
structure RemoteOutcome where
  merged : CalendarEventData
  gcal : String
  synced : Bool
  syncError : Option String
  uiError : Option String
  trace : List Call
deriving DecidableEq, Repr

/-- Lines 228-253 of `handleExecuteAction`: the guarded remote write with
one AI-repair retry. -/
def remotePhase (env : Env) (mcal : String) (action : ProposedAction)
    (authed : Bool) (gcal0 : String) (merged : CalendarEventData)
    (targetRecord : Option LocalEventRecord) (isAuto : Bool) : RemoteOutcome :=
  if authed then
    match firstAttempt env mcal action gcal0 merged targetRecord with
    | (none, g, tr) => ⟨merged, g, true, none, none, tr⟩
    | (some m1, g1, tr1) =>
      match env.fixWithAI merged m1 with
      | .ok fixed =>
        let merged2 := mergeData merged fixed
        match performSync env mcal action.type g1 merged2 targetRecord with
        | (.ok g2, tr2) =>
            ⟨merged2, g2, true, none, none, tr1 ++ [.aifix merged m1] ++ tr2⟩
        | (.error m2, tr2) =>
            ⟨merged2, g1, false, some m2,
              if isAuto then none
              else some ("Sync Failed: " ++ m2 ++ ". Saved locally."),
              tr1 ++ [.aifix merged m1] ++ tr2⟩
      | .error m2 =>
          ⟨merged, g1, false, some m2,
            if isAuto then none
            else some ("Sync Failed: " ++ m2 ++ ". Saved locally."),
            tr1 ++ [.aifix merged m1]⟩
  else ⟨merged, gcal0, false, none, none, []⟩

/-- The record pushed by the CREATE branch of `updateLocalState`. -/
def recFromData (d : CalendarEventData) (uuid gcalId nowIso inputText : String)
    (synced : Bool) (error : Option String) : LocalEventRecord where
  localId := uuid
  gcalId := gcalId
  summary := d.summary
  description := d.description
  location := d.location
  startTime := d.startTime
  endTime := d.endTime
  lastUpdated := nowIso
  originalText := some inputText
  synced := synced
  error := error

/-- The per-record update of the UPDATE branch of `updateLocalState`:
`\x7b ...e, ...data, gcalId, lastUpdated: now, synced, error: error || undefined \x7d`. -/
def applyUpd (e : LocalEventRecord) (d : CalendarEventData)
    (gcalId nowIso : String) (synced : Bool) (error : Option String) :
    LocalEventRecord :=
  { e with
    summary := d.summary <|> e.summary
    description := d.description <|> e.description
    location := d.location <|> e.location
    startTime := d.startTime <|> e.startTime
    endTime := d.endTime <|> e.endTime
    gcalId := gcalId
    lastUpdated := nowIso
    synced := synced
    error := match error with
      | some s => if s = "" then none else some s
      | none => none }

/-- `updateLocalState` of `App.tsx` (lines 297-319), restricted to the new
ledger value (`next`); the caller also stores it under `STORAGE_KEY`. -/
def updateLocal (type : ActionType) (d : CalendarEventData) (gcalId : String)
    (synced : Bool) (error : Option String) (targetLocalId : Option String)
    (uuid nowIso inputText : String) (prev : List LocalEventRecord) :
    List LocalEventRecord :=
  if type = ActionType.CREATE then
    prev ++ [recFromData d uuid gcalId nowIso inputText synced error]
  else if type = ActionType.UPDATE ∧ truthyS targetLocalId then
    prev.map (fun e =>
      if targetLocalId = some e.localId then applyUpd e d gcalId nowIso synced error
      else e)
  else prev

/-- `action.targetLocalId ? localEvents.find(...) : null` (line 217). -/
def findTarget (events : List LocalEventRecord) (action : ProposedAction) :
    Option LocalEventRecord :=
  if truthyS action.targetLocalId then
    events.find? (fun e => action.targetLocalId = some e.localId)
  else none

/-- `mergedEventData` (lines 218-220): merge the action data over the target
record for UPDATE, otherwise the raw action data. -/
def mergedOf (action : ProposedAction) (target : Option LocalEventRecord) :
    Option CalendarEventData :=
  if action.type = ActionType.UPDATE then
    match target with
    | some r => some (mergeData (toEventData r) (action.eventData.getD {}))
    | none => action.eventData
  else action.eventData

/-- `targetRecord?.gcalId || ('manual-link-' + Date.now())` (line 224). -/
def initialGcal (target : Option LocalEventRecord) (nowMs : Int) : String :=
  match target with
  | some r => if r.gcalId = "" then "manual-link-" ++ toString nowMs else r.gcalId
  | none => "manual-link-" ++ toString nowMs

/-- `prev.filter((_, i) => i !== index)`. -/
def removeIdx (l : List ProposedAction) (idx : Int) : List ProposedAction :=
  (l.enum.filter (fun p => (p.1 : Int) ≠ idx)).map (·.2)

/-- `handleExecuteAction` of `App.tsx` (lines 213-264).  `snapshot` is the
`localEvents` closure variable of the render that invoked the handler (used
by the `find` on line 217), while mutation applies to the current state
`s.localEvents` through the functional `setLocalEvents` update.  Returns the
new state and the remote/AI calls made. -/
def handleExecuteAction (env : Env) (fresh : Fresh)
    (snapshot : List LocalEventRecord) (s : AppState)
    (action : ProposedAction) (index : Int) (isAuto : Bool) :
    AppState × List Call :=
  let target := findTarget snapshot action
  match mergedOf action target with
  | none => ({ s with errorMsg := none }, [])
  | some merged =>
    let out := remotePhase env s.managedCalendarId action
      (s.isAuthenticated && env.tokenPresent) (initialGcal target fresh.nowMs)
      merged target isAuto
    let histType := if action.type = ActionType.MOVE then ActionType.CREATE
      else action.type
    let next := updateLocal histType out.merged out.gcal out.synced out.syncError
      (target.map (·.localId)) fresh.uuid fresh.nowIso s.inputText s.localEvents
    let s1 : AppState :=
      { s with errorMsg := out.uiError, localEvents := next, storage := next }
    if isAuto then (s1, out.trace)
    else
      ({ s1 with
          proposedActions := removeIdx s.proposedActions index
          inputText := if s.proposedActions.length = 1 then "" else s.inputText },
        out.trace)

/-- The record pushed for each imported cloud event inside
`handleSyncFromCloud` (lines 354-364). -/
def importEvent (uuid nowIso : String) (e : GEvent) : LocalEventRecord where
  localId := uuid
  gcalId := e.id
  summary := e.summary
  description := e.description
  location := e.location
  startTime := jsOrS e.start.dateTime e.start.date
  endTime := jsOrS e.finish.dateTime e.finish.date
  lastUpdated := nowIso
  originalText := none
  synced := true
  error := none

/-- The `events.forEach` loop of `handleSyncFromCloud`: push each event not
already present (dedup by `gcalId`), checking against the growing list.
`uuidAt k` is the `crypto.randomUUID()` drawn when the list has `k`
entries. -/
def importFold (uuidAt : Nat → String) (nowIso : String) :
    List GEvent → List LocalEventRecord → List LocalEventRecord
  | [], acc => acc
  | e :: rest, acc =>
    if (acc.find? (fun l => l.gcalId = e.id)).isSome then
      importFold uuidAt nowIso rest acc
    else
      importFold uuidAt nowIso rest (acc ++ [importEvent (uuidAt acc.length) nowIso e])

/-- `handleSyncFromCloud` of `App.tsx` (lines 338-378).  `tmin`/`tmax` are
the ISO strings for now-7d and now+30d computed from the clock. -/
def handleSyncFromCloud (env : Env) (uuidAt : Nat → String) (nowIso : String)
    (tmin tmax : String) (s : AppState) : AppState :=
  if ¬ s.isAuthenticated then s
  else
    match env.listEvents s.managedCalendarId tmin tmax with
    | .error m => { s with errorMsg := some ("Failed to sync from cloud: " ++ m) }
    | .ok events =>
      let next := importFold uuidAt nowIso events s.localEvents
      { s with localEvents := next, storage := next }

/-- The `sameTime` predicate of the duplicate-detection step (line 168-173):
the listed event starts within one hour (3600000 ms) of the proposed start
`t`. -/
def nearStart (env : Env) (t : Int) (e : GEvent) : Bool :=
  match (jsOrS e.start.dateTime e.start.date).bind (fun x => env.timeMs x) with
  | none => false
  | some te => (te - t).natAbs < 3600000

/-- The reasoning suffix appended when a nearby primary-calendar event is
found (line 181). -/
def moveNote (summary : Option String) : String :=
  " (Found similar event \"" ++ jsShow summary ++
    "\" in Primary calendar. Suggesting move.)"

/-- The per-action body of the duplicate-detection / MOVE conversion inside
`handleAnalyze` (lines 156-188).  Any throw inside the `try` (invalid start
date making `toISOString` throw, or a failing `listEvents`) leaves the
action unchanged. -/
def detectMove (env : Env) (action : ProposedAction) : ProposedAction :=
  if action.type = ActionType.CREATE ∧ action.eventData.isSome then
    let d := action.eventData.getD {}
    match d.startTime.bind (fun x => env.timeMs x) with
    | none => action
    | some t =>
      let w := env.hourWindow t
      match env.listEvents "primary" w.1 w.2 with
      | .error _ => action
      | .ok events =>
        match events.find? (fun e => nearStart env t e) with
        | none => action
        | some mtch =>
          { action with
            type := ActionType.MOVE
            sourceCalendarId := some "primary"
            sourceEventId := some mtch.id
            reasoning := action.reasoning ++ moveNote mtch.summary
            eventData := some { d with summary := mtch.summary } }
  else action

/-- `actions.indexOf(action)` (JS, -1 when absent). -/
def idxOfI (l : List ProposedAction) (a : ProposedAction) : Int :=
  match l.findIdx? (fun x => x == a) with
  | some n => (n : Int)
  | none => -1

/-- The auto-trust execution loop of `handleAnalyze` (lines 199-201): run
`handleExecuteAction` for each high-confidence action in order, threading
the state; `snapshot` stays the analyze-time ledger (the closure variable
read by line 217), and `allActs` is the full proposed list for `indexOf`. -/
def execLoop (env : Env) (freshAt : Nat → Fresh)
    (snapshot : List LocalEventRecord) (allActs : List ProposedAction) :
    List ProposedAction → AppState → Nat → AppState
  | [], s, _ => s
  | a :: rest, s, k =>
    execLoop env freshAt snapshot allActs rest
      (handleExecuteAction env (freshAt k) snapshot s a (idxOfI allActs a) true).1
      (k + 1)

/-- `handleAnalyze` of `App.tsx` (lines 142-211): run the extraction call,
apply duplicate detection when authenticated, and auto-execute
high-confidence CREATE/UPDATE actions when auto-trust is on. -/
def handleAnalyze (env : Env) (freshAt : Nat → Fresh) (s : AppState) : AppState :=
  if jsTrim s.inputText = "" then s
  else
    let s0 := { s with errorMsg := none, proposedActions := [] }
    match env.analyze s.inputText s.localEvents with
    | .error m =>
      { s0 with errorMsg := some (if m = "" then "Failed to analyze text." else m) }
    | .ok acts0 =>
      let actions := if s.isAuthenticated then acts0.map (detectMove env) else acts0
      let s1 := { s0 with proposedActions := actions }
      if s.autoTrust ∧ s.isAuthenticated then
        let high := actions.filter (fun a =>
          a.confidenceScore > (85 : ℚ) / 100 ∧
          (a.type = ActionType.CREATE ∨ a.type = ActionType.UPDATE))
        if high.length > 0 then
          let s2 := execLoop env freshAt s.localEvents actions high s1 0
          { s2 with
            proposedActions := s2.proposedActions.filter (fun p => ¬ high.contains p)
            inputText := "" }
        else s1
      else s1

/-- A `start`/`end` field of an event resource sent by the service:
either an all-day `\x7b date \x7d` object or a timed
`\x7b dateTime, timeZone \x7d` object; `tzOnly` is the degenerate
`\x7b dateTime: undefined, timeZone \x7d` object produced when `formatTime`
is applied to an absent string (the `dateTime` key is dropped by
`JSON.stringify`). -/
inductive GTime where
  | date (d : String)
  | dateTime (dt : String) (tz : String)
  | tzOnly (tz : String)
deriving DecidableEq, Repr

/-- The regex test `/^\d\x7b4\x7d-\d\x7b2\x7d-\d\x7b2\x7d$/.test(timeStr)` of
`CalendarService.formatTime`: exactly the shape YYYY-MM-DD. -/
def isDateOnlyShape (s : String) : Bool :=
  match s.data with
  | [a, b, c, d, h1, e, f, h2, g, i] =>
    a.isDigit && b.isDigit && c.isDigit && d.isDigit && h1 = '-' &&
    e.isDigit && f.isDigit && h2 = '-' && g.isDigit && i.isDigit
  | _ => false

/-- `CalendarService.formatTime` (part_002, lines 186-197): a date-only
string becomes an all-day `date` field, anything else a `dateTime` field
with the local time zone `tz`. -/
def formatTime (tz : String) (timeStr : String) : GTime :=
  if isDateOnlyShape timeStr then .date timeStr else .dateTime timeStr tz

/-- `formatTime` applied to a possibly-absent string (an absent value passes
the regex test as the coerced string "undefined", which is not date-shaped,
yielding `\x7b dateTime: undefined, timeZone \x7d`). -/
def formatTimeOpt (tz : String) : Option String → GTime
  | some s => formatTime tz s
  | none => .tzOnly tz

/-- The JSON resource body built by `CalendarService.createEvent` and
`CalendarService.updateEvent`; `start`/`finish` are `none` when the
corresponding key is omitted (updateEvent omits them for falsy times). -/
structure EventResource where
  summary : Option String
  description : Option String
  location : Option String
  start : Option GTime
  finish : Option GTime
deriving DecidableEq, Repr

/-- The resource built by `CalendarService.createEvent` (part_002,
lines 248-261). -/
def createEventResource (tz : String) (event : CalendarEventData) : EventResource where
  summary := event.summary
  description := event.description
  location := event.location
  start := some (formatTimeOpt tz event.startTime)
  finish := some (formatTimeOpt tz event.endTime)

/-- The resource built by `CalendarService.updateEvent` (part_002,
lines 263-277): `start`/`end` keys are only set for truthy time strings. -/
def updateEventResource (tz : String) (event : CalendarEventData) : EventResource where
  summary := event.summary
  description := event.description
  location := event.location
  start := if truthyS event.startTime then
      some (formatTime tz (event.startTime.getD "")) else none
  finish := if truthyS event.endTime then
      some (formatTime tz (event.endTime.getD "")) else none

/-! ### Concrete fixtures used by the witness theorems -/

/-- Sample event data. -/
def dW : CalendarEventData :=
  { summary := some "Meet Bob"
    startTime := some "2024-01-02T10:00:00"
    endTime := some "2024-01-02T11:00:00" }

/-- A sample ledger record already mirrored remotely. -/
def recW : LocalEventRecord :=
  { localId := "loc1", gcalId := "gid-1", summary := some "Meet Bob"
    startTime := some "2024-01-02T10:00:00", endTime := some "2024-01-02T11:00:00"
    lastUpdated := "2024-01-01T00:00:00Z", originalText := some "orig"
    synced := true, error := none }

/-- A sample app state with one ledger record, signed in. -/
def sW : AppState :=
  { inputText := "hello", proposedActions := [], localEvents := [recW]
    storage := [recW], errorMsg := none, managedCalendarId := "mcal"
    isAuthenticated := true, autoTrust := false }

/-- Sample freshness data. -/
def freshW : Fresh :=
  { uuid := "uuid-new", nowIso := "2024-01-03T00:00:00Z", nowMs := 1700000000000 }

/-- An environment where every remote call succeeds. -/
def envOkW : Env :=
  { tokenPresent := true
    moveEvent := fun _ _ _ => .ok "gid-moved"
    updateEvent := fun _ _ _ => .ok ()
    createEvent := fun _ _ => .ok "gid-new"
    listEvents := fun _ _ _ => .ok []
    fixWithAI := fun _ _ => .error "AI could not fix the error."
    analyze := fun _ _ => .ok []
    timeMs := fun _ => some 0
    dayWindow := fun _ => ("dmin", "dmax")
    hourWindow := fun _ => ("hmin", "hmax") }

/-- An environment where every remote write and the AI repair fail. -/
def envFailW : Env :=
  { tokenPresent := true
    moveEvent := fun _ _ _ => .error "boom"
    updateEvent := fun _ _ _ => .error "boom"
    createEvent := fun _ _ => .error "boom"
    listEvents := fun _ _ _ => .error "boom"
    fixWithAI := fun _ _ => .error "nofix"
    analyze := fun _ _ => .error "extract failed"
    timeMs := fun _ => none
    dayWindow := fun _ => ("dmin", "dmax")
    hourWindow := fun _ => ("hmin", "hmax") }

/-- A proposed CREATE action. -/
def actCreateW : ProposedAction :=
  { type := ActionType.CREATE, confidenceScore := 1, reasoning := "r"
    eventData := some dW }

/-- A proposed UPDATE action targeting `recW`. -/
def actUpdateW : ProposedAction :=
  { type := ActionType.UPDATE, confidenceScore := 1, reasoning := "r"
    targetLocalId := some "loc1", eventData := some { summary := some "New title" } }

/-- A proposed MOVE action (as produced by the duplicate-detection step). -/
def actMoveW : ProposedAction :=
  { type := ActionType.MOVE, confidenceScore := 1, reasoning := "r"
    sourceCalendarId := some "primary", sourceEventId := some "src-evt"
    eventData := some dW }

/-- An environment where remote writes fail but the AI repair succeeds,
returning a payload with a different summary. -/
def envFixW : Env :=
  { envFailW with fixWithAI := fun _ _ => .ok { summary := some "AI fixed title" } }

/-- An UPDATE action that does not set a summary. -/
def actUpdNoSummaryW : ProposedAction :=
  { type := ActionType.UPDATE, confidenceScore := 1, reasoning := "r"
    targetLocalId := some "loc1", eventData := some { location := some "room 5" } }

/-! ### Support lemmas about the execution pipeline -/

/-- Number of AI-repair calls (`fixActionWithAI`) in a call trace. -/
def countAifix (tr : List Call) : Nat :=
  (tr.filter fun c => match c with | .aifix _ _ => true | _ => false).length

/-- The remote phase of an execution, applied to the arguments
`handleExecuteAction` derives from the state and the action. -/
def execOutcome (env : Env) (fresh : Fresh) (snapshot : List LocalEventRecord)
    (s : AppState) (action : ProposedAction) (isAuto : Bool) : RemoteOutcome :=
  remotePhase env s.managedCalendarId action (s.isAuthenticated && env.tokenPresent)
    (initialGcal (findTarget snapshot action) fresh.nowMs)
    ((mergedOf action (findTarget snapshot action)).getD {})
    (findTarget snapshot action) isAuto

theorem handleExecuteAction_of_none {env fresh snapshot s action index isAuto}
    (hm : mergedOf action (findTarget snapshot action) = none) :
    handleExecuteAction env fresh snapshot s action index isAuto =
      ({ s with errorMsg := none }, []) := by
  cases isAuto <;> simp [handleExecuteAction, hm]

theorem handleExecuteAction_localEvents {env fresh snapshot s action index isAuto}
    {merged : CalendarEventData}
    (hm : mergedOf action (findTarget snapshot action) = some merged) :
    (handleExecuteAction env fresh snapshot s action index isAuto).1.localEvents =
      updateLocal
        (if action.type = ActionType.MOVE then ActionType.CREATE else action.type)
        (execOutcome env fresh snapshot s action isAuto).merged
        (execOutcome env fresh snapshot s action isAuto).gcal
        (execOutcome env fresh snapshot s action isAuto).synced
        (execOutcome env fresh snapshot s action isAuto).syncError
        ((findTarget snapshot action).map (fun r => r.localId))
        fresh.uuid fresh.nowIso s.inputText s.localEvents := by
  cases isAuto <;> simp [handleExecuteAction, hm, execOutcome]

theorem handleExecuteAction_storage {env fresh snapshot s action index isAuto}
    {merged : CalendarEventData}
    (hm : mergedOf action (findTarget snapshot action) = some merged) :
    (handleExecuteAction env fresh snapshot s action index isAuto).1.storage =
      (handleExecuteAction env fresh snapshot s action index isAuto).1.localEvents := by
  cases isAuto <;> simp [handleExecuteAction, hm]

theorem handleExecuteAction_trace {env fresh snapshot s action index isAuto}
    {merged : CalendarEventData}
    (hm : mergedOf action (findTarget snapshot action) = some merged) :
    (handleExecuteAction env fresh snapshot s action index isAuto).2 =
      (execOutcome env fresh snapshot s action isAuto).trace := by
  cases isAuto <;> simp [handleExecuteAction, hm, execOutcome]

theorem applyUpd_localId (e : LocalEventRecord) (d : CalendarEventData)
    (g n : String) (sy : Bool) (er : Option String) :
    (applyUpd e d g n sy er).localId = e.localId := rfl

/-- No AI repair in the trace means `mergedEventData` was never patched. -/
theorem remotePhase_merged_of_no_aifix {env mcal action authed g0 merged target isAuto}
    (h : countAifix (remotePhase env mcal action authed g0 merged target isAuto).trace = 0) :
    (remotePhase env mcal action authed g0 merged target isAuto).merged = merged := by
  by_cases ha : authed = true
  · rcases hfa : firstAttempt env mcal action g0 merged target with ⟨e, g1, tr1⟩
    rcases e with _ | m1
    · simp [remotePhase, ha, hfa]
    · rcases hfix : env.fixWithAI merged m1 with m2 | fixed
      · exfalso
        simp [remotePhase, ha, hfa, hfix, countAifix, List.filter_append] at h
      · rcases hps : performSync env mcal action.type g1 (mergeData merged fixed) target
          with ⟨r2, tr2⟩
        rcases r2 with m2 | g2 <;>
          · exfalso
            simp [remotePhase, ha, hfa, hfix, hps, countAifix, List.filter_append] at h
  · have ha' : authed = false := by
      cases authed
      · rfl
      · exact absurd rfl ha
    simp [remotePhase, ha']

/-! ### C1 -/

/-- C1: for every accepted CREATE action (and every accepted MOVE action,
which is recorded locally as a CREATE), executing the action appends exactly
one new ledger record, carrying the freshly generated localId, the merged
event data, the resulting remote identifier, the synced flag and any error;
no other number of records is added. -/
theorem create_or_move_appends_exactly_one_record
    (env : Env) (fresh : Fresh) (snapshot : List LocalEventRecord) (s : AppState)
    (action : ProposedAction) (index : Int) (isAuto : Bool) (d : CalendarEventData)
    (hty : action.type = ActionType.CREATE ∨ action.type = ActionType.MOVE)
    (hd : action.eventData = some d) :
    ∃ out : RemoteOutcome,
      out = remotePhase env s.managedCalendarId action
        (s.isAuthenticated && env.tokenPresent)
        (initialGcal (findTarget snapshot action) fresh.nowMs) d
        (findTarget snapshot action) isAuto ∧
      (handleExecuteAction env fresh snapshot s action index isAuto).1.localEvents =
        s.localEvents ++ [recFromData out.merged fresh.uuid out.gcal fresh.nowIso
          s.inputText out.synced out.syncError] := by
  refine ⟨_, rfl, ?_⟩
  have hne : ¬ action.type = ActionType.UPDATE := by
    rcases hty with h | h <;> simp [h]
  have hm : mergedOf action (findTarget snapshot action) = some d := by
    simp [mergedOf, hne, hd]
  have hh : (if action.type = ActionType.MOVE then ActionType.CREATE
      else action.type) = ActionType.CREATE := by
    rcases hty with h | h <;> simp [h]
  cases isAuto <;> simp [handleExecuteAction, hm, hh, updateLocal]

/-- Witness for C1 at a concrete CREATE action and environment. -/
theorem create_or_move_appends_exactly_one_record_witness :
    ∃ out : RemoteOutcome,
      out = remotePhase envOkW sW.managedCalendarId actCreateW
        (sW.isAuthenticated && envOkW.tokenPresent)
        (initialGcal (findTarget sW.localEvents actCreateW) freshW.nowMs) dW
        (findTarget sW.localEvents actCreateW) false ∧
      (handleExecuteAction envOkW freshW sW.localEvents sW actCreateW 0 false).1.localEvents =
        sW.localEvents ++ [recFromData out.merged freshW.uuid out.gcal freshW.nowIso
          sW.inputText out.synced out.syncError] :=
  create_or_move_appends_exactly_one_record envOkW freshW sW.localEvents sW
    actCreateW 0 false dW (Or.inl rfl) rfl

/-! ### C2 -/

/-- C2: for every accepted UPDATE action, execution mutates at most the
ledger record whose localId equals the action's targetLocalId; the mutation
applies the execution's final payload over the existing record's fields, and
when no AI repair ran that payload is exactly the merge of the action's
event data over the existing record's fields; every other record in the
ledger is left unchanged, and the ledger's length and record order are
preserved.  (localIds are assumed pairwise distinct, as they are generated
by `crypto.randomUUID()`.) -/
theorem update_mutates_only_target
    (env : Env) (fresh : Fresh) (s : AppState) (action : ProposedAction)
    (index : Int) (isAuto : Bool) (tid : String)
    (hty : action.type = ActionType.UPDATE)
    (htid : action.targetLocalId = some tid) (htid0 : tid ≠ "")
    (hinj : ∀ x ∈ s.localEvents, ∀ y ∈ s.localEvents,
      x.localId = y.localId → x = y) :
    (handleExecuteAction env fresh s.localEvents s action index isAuto).1.localEvents.length
      = s.localEvents.length ∧
    ∃ dataF gcal synced err,
      (countAifix (handleExecuteAction env fresh s.localEvents s action index
          isAuto).2 = 0 →
        ∀ e ∈ s.localEvents, e.localId = tid →
          dataF = mergeData (toEventData e) (action.eventData.getD {})) ∧
      ∀ i : Nat, ∀ e : LocalEventRecord,
        s.localEvents[i]? = some e →
        (e.localId ≠ tid →
          (handleExecuteAction env fresh s.localEvents s action index
            isAuto).1.localEvents[i]? = some e) ∧
        (e.localId = tid →
          (handleExecuteAction env fresh s.localEvents s action index
            isAuto).1.localEvents[i]? =
            some (applyUpd e dataF gcal fresh.nowIso synced err)) := by
  have htr : truthyS action.targetLocalId = true := by
    simp [truthyS, htid, htid0]
  rcases hfind : findTarget s.localEvents action with _ | r
  · -- no record carries the targeted localId: the ledger is unchanged
    have hnone : s.localEvents.find?
        (fun e => action.targetLocalId = some e.localId) = none := by
      simpa [findTarget, htr] using hfind
    have hnomem : ∀ e ∈ s.localEvents, e.localId ≠ tid := by
      intro e he heq
      have := List.find?_eq_none.mp hnone e he
      simp [htid, heq] at this
    have hres : (handleExecuteAction env fresh s.localEvents s action index
        isAuto).1.localEvents = s.localEvents := by
      rcases hd : action.eventData with _ | d
      · have hm : mergedOf action (findTarget s.localEvents action) = none := by
          simp [mergedOf, hty, hfind, hd]
        rw [handleExecuteAction_of_none hm]
      · have hm : mergedOf action (findTarget s.localEvents action) = some d := by
          simp [mergedOf, hty, hfind, hd]
        rw [handleExecuteAction_localEvents hm]
        simp [updateLocal, hty, hfind, truthyS]
    refine ⟨by rw [hres], {}, "", false, none,
      fun _ e he heq => absurd heq (hnomem e he), ?_⟩
    intro i e he
    refine ⟨fun _ => by rw [hres]; exact he, fun heq => ?_⟩
    exact absurd heq (hnomem e (by
      obtain ⟨h, rfl⟩ := List.getElem?_eq_some.mp he
      exact List.getElem_mem h))
  · -- the target record exists
    have hfind' : s.localEvents.find?
        (fun e => action.targetLocalId = some e.localId) = some r := by
      simpa [findTarget, htr] using hfind
    have hrid : r.localId = tid := by
      have := List.find?_some hfind'
      simp [htid] at this
      exact this.symm
    have hrmem : r ∈ s.localEvents := List.mem_of_find?_eq_some hfind'
    have hm : mergedOf action (findTarget s.localEvents action) =
        some (mergeData (toEventData r) (action.eventData.getD {})) := by
      simp [mergedOf, hty, hfind]
    have htr' : truthyS (some r.localId) = true := by
      simp [truthyS, hrid, htid0]
    have hht : (if action.type = ActionType.MOVE then ActionType.CREATE
        else action.type) = ActionType.UPDATE := by simp [hty]
    have hres : (handleExecuteAction env fresh s.localEvents s action index
        isAuto).1.localEvents = s.localEvents.map (fun e =>
          if r.localId = e.localId then
            applyUpd e (execOutcome env fresh s.localEvents s action isAuto).merged
              (execOutcome env fresh s.localEvents s action isAuto).gcal
              fresh.nowIso
              (execOutcome env fresh s.localEvents s action isAuto).synced
              (execOutcome env fresh s.localEvents s action isAuto).syncError
          else e) := by
      rw [handleExecuteAction_localEvents hm, hht]
      simp [updateLocal, hfind, htr']
    refine ⟨by rw [hres]; exact List.length_map _ _,
      (execOutcome env fresh s.localEvents s action isAuto).merged,
      (execOutcome env fresh s.localEvents s action isAuto).gcal,
      (execOutcome env fresh s.localEvents s action isAuto).synced,
      (execOutcome env fresh s.localEvents s action isAuto).syncError,
      ?_, ?_⟩
    · intro hcnt e he heq
      have her : e = r := hinj e he r hrmem (by rw [heq, hrid])
      have hm0 : countAifix (execOutcome env fresh s.localEvents s action
          isAuto).trace = 0 := by
        rw [← @handleExecuteAction_trace env fresh s.localEvents s action index
          isAuto _ hm]
        exact hcnt
      have := remotePhase_merged_of_no_aifix (by
        simpa [execOutcome] using hm0)
      have hmg : (execOutcome env fresh s.localEvents s action isAuto).merged =
          mergeData (toEventData r) (action.eventData.getD {}) := by
        simpa [execOutcome, hm] using this
      rw [hmg, her]
    · intro i e he
      have hmem : e ∈ s.localEvents := by
        obtain ⟨h, rfl⟩ := List.getElem?_eq_some.mp he
        exact List.getElem_mem h
      constructor
      · intro hne
        rw [hres, List.getElem?_map, he]
        have : ¬ r.localId = e.localId := by rw [hrid]; exact fun h => hne h.symm
        simp [this]
      · intro heq
        have her : e = r := hinj e hmem r hrmem (by rw [heq, hrid])
        rw [hres, List.getElem?_map, he]
        have hc : r.localId = e.localId := by rw [hrid, heq]
        simp [hc]

/-- Counterexample to C2 as stated: when the remote write fails and the AI
repair patches the payload, the targeted record's stored fields are not the
merge of the action's event data over the existing record's fields — here
the action carries no summary, the merge would keep the record's summary
"Meet Bob", but the stored record carries the repair's "AI fixed title". -/
theorem update_merge_counterexample :
    (handleExecuteAction envFixW freshW sW.localEvents sW actUpdNoSummaryW 0
      false).1.localEvents.map (fun r => r.summary) = [some "AI fixed title"] ∧
    (mergeData (toEventData recW) (actUpdNoSummaryW.eventData.getD {})).summary
      = some "Meet Bob" := by decide

/-- Witness for C2 at a concrete UPDATE action and environment. -/
theorem update_mutates_only_target_witness :
    (handleExecuteAction envOkW freshW sW.localEvents sW actUpdateW 0 false).1.localEvents.length
      = sW.localEvents.length ∧
    ∃ dataF gcal synced err,
      (countAifix (handleExecuteAction envOkW freshW sW.localEvents sW actUpdateW 0
          false).2 = 0 →
        ∀ e ∈ sW.localEvents, e.localId = "loc1" →
          dataF = mergeData (toEventData e) (actUpdateW.eventData.getD {})) ∧
      ∀ i : Nat, ∀ e : LocalEventRecord,
        sW.localEvents[i]? = some e →
        (e.localId ≠ "loc1" →
          (handleExecuteAction envOkW freshW sW.localEvents sW actUpdateW 0
            false).1.localEvents[i]? = some e) ∧
        (e.localId = "loc1" →
          (handleExecuteAction envOkW freshW sW.localEvents sW actUpdateW 0
            false).1.localEvents[i]? =
            some (applyUpd e dataF gcal freshW.nowIso synced err)) :=
  update_mutates_only_target envOkW freshW sW actUpdateW 0 false "loc1"
    rfl rfl (by decide) (by decide)



/-! ### C3 -/

theorem updateLocal_id_preserved (type : ActionType) (d : CalendarEventData)
    (gcalId : String) (synced : Bool) (error : Option String)
    (targetLocalId : Option String) (uuid nowIso inputText : String)
    (prev : List LocalEventRecord) :
    ∀ r ∈ prev, ∃ q ∈ updateLocal type d gcalId synced error targetLocalId
      uuid nowIso inputText prev, q.localId = r.localId := by
  intro r hr
  unfold updateLocal
  split
  · exact ⟨r, List.mem_append_left _ hr, rfl⟩
  · split
    · refine ⟨if targetLocalId = some r.localId then
          applyUpd r d gcalId nowIso synced error else r,
        List.mem_map.mpr ⟨r, hr, rfl⟩, ?_⟩
      split <;> rfl
    · exact ⟨r, hr, rfl⟩

theorem updateLocal_length_ge (type : ActionType) (d : CalendarEventData)
    (gcalId : String) (synced : Bool) (error : Option String)
    (targetLocalId : Option String) (uuid nowIso inputText : String)
    (prev : List LocalEventRecord) :
    prev.length ≤ (updateLocal type d gcalId synced error targetLocalId
      uuid nowIso inputText prev).length := by
  unfold updateLocal
  split
  · simp
  · split
    · simp
    · exact le_refl _

/-- C3: a failed remote write never drops the local record: for every
accepted action whose initial remote write and AI-repaired retry both fail,
the local ledger mutation (create or update) is still performed, with
synced set to false and the error message of the second failure stored on
the record for manual retry. -/
theorem failed_write_keeps_local_record
    (env : Env) (fresh : Fresh) (s : AppState) (action : ProposedAction)
    (index : Int) (isAuto : Bool) (merged : CalendarEventData) (m1 m2 : String)
    (hauth : s.isAuthenticated = true) (htok : env.tokenPresent = true)
    (hm : mergedOf action (findTarget s.localEvents action) = some merged)
    (h1 : (firstAttempt env s.managedCalendarId action
        (initialGcal (findTarget s.localEvents action) fresh.nowMs) merged
        (findTarget s.localEvents action)).1 = some m1)
    (h2 : env.fixWithAI merged m1 = .error m2 ∨
      ∃ fixed, env.fixWithAI merged m1 = .ok fixed ∧
        (performSync env s.managedCalendarId action.type
          (firstAttempt env s.managedCalendarId action
            (initialGcal (findTarget s.localEvents action) fresh.nowMs) merged
            (findTarget s.localEvents action)).2.1
          (mergeData merged fixed) (findTarget s.localEvents action)).1
          = .error m2) :
    (∃ dataF gcalF,
      (handleExecuteAction env fresh s.localEvents s action index
        isAuto).1.localEvents =
        updateLocal
          (if action.type = ActionType.MOVE then ActionType.CREATE
            else action.type)
          dataF gcalF false (some m2)
          ((findTarget s.localEvents action).map (fun r => r.localId))
          fresh.uuid fresh.nowIso s.inputText s.localEvents) ∧
    ∀ r ∈ s.localEvents,
      ∃ q ∈ (handleExecuteAction env fresh s.localEvents s action index
        isAuto).1.localEvents, q.localId = r.localId := by
  have hA : (s.isAuthenticated && env.tokenPresent) = true := by
    rw [hauth, htok]; rfl
  rcases hfa : firstAttempt env s.managedCalendarId action
      (initialGcal (findTarget s.localEvents action) fresh.nowMs) merged
      (findTarget s.localEvents action) with ⟨e1, g1, tr1⟩
  rw [hfa] at h1 h2
  simp only at h1
  subst h1
  have hout : (execOutcome env fresh s.localEvents s action isAuto).synced = false ∧
      (execOutcome env fresh s.localEvents s action isAuto).syncError = some m2 := by
    rcases h2 with h2 | ⟨fixed, hfix, hps⟩
    · constructor <;> simp [execOutcome, remotePhase, hA, hfa, hm, h2]
    · rcases hps' : performSync env s.managedCalendarId action.type g1
          (mergeData merged fixed) (findTarget s.localEvents action) with ⟨r2, tr2⟩
      rw [hps'] at hps
      simp only at hps
      subst hps
      constructor <;> simp [execOutcome, remotePhase, hA, hfa, hm, hfix, hps']
  constructor
  · refine ⟨(execOutcome env fresh s.localEvents s action isAuto).merged,
      (execOutcome env fresh s.localEvents s action isAuto).gcal, ?_⟩
    rw [handleExecuteAction_localEvents hm, hout.1, hout.2]
  · intro r hr
    rw [handleExecuteAction_localEvents hm]
    exact updateLocal_id_preserved _ _ _ _ _ _ _ _ _ _ r hr

/-- Witness for C3: a CREATE action against an environment where the write
and the AI repair both fail. -/
theorem failed_write_keeps_local_record_witness :
    (∃ dataF gcalF,
      (handleExecuteAction envFailW freshW sW.localEvents sW actCreateW 0
        false).1.localEvents =
        updateLocal
          (if actCreateW.type = ActionType.MOVE then ActionType.CREATE
            else actCreateW.type)
          dataF gcalF false (some "nofix")
          ((findTarget sW.localEvents actCreateW).map (fun r => r.localId))
          freshW.uuid freshW.nowIso sW.inputText sW.localEvents) ∧
    ∀ r ∈ sW.localEvents,
      ∃ q ∈ (handleExecuteAction envFailW freshW sW.localEvents sW actCreateW 0
        false).1.localEvents, q.localId = r.localId :=
  failed_write_keeps_local_record envFailW freshW sW actCreateW 0 false
    dW "boom" "nofix" rfl rfl (by decide) (by decide) (Or.inl rfl)

/-! ### C4 -/

theorem countAifix_append (a b : List Call) :
    countAifix (a ++ b) = countAifix a + countAifix b := by
  simp [countAifix, List.filter_append]

theorem countAifix_performSync (env : Env) (mcal : String) (type : ActionType)
    (g : String) (d : CalendarEventData) (t : Option LocalEventRecord) :
    countAifix (performSync env mcal type g d t).2 = 0 := by
  unfold performSync
  by_cases hc : type = ActionType.CREATE ∨
      type = ActionType.UPDATE ∧ strStartsWith g "manual-link-" = true
  · simp only [if_pos hc]
    split <;> simp [countAifix]
  · simp only [if_neg hc]
    repeat' split
    all_goals simp [countAifix]

theorem countAifix_nil : countAifix [] = 0 := rfl

theorem countAifix_one_aifix (d : CalendarEventData) (m : String) :
    countAifix [Call.aifix d m] = 1 := rfl

theorem countAifix_cons_aifix (d : CalendarEventData) (m : String)
    (tr : List Call) :
    countAifix (Call.aifix d m :: tr) = countAifix tr + 1 := by
  simp [countAifix, List.filter_cons]

theorem countAifix_firstAttempt (env : Env) (mcal : String)
    (action : ProposedAction) (g0 : String) (merged : CalendarEventData)
    (t : Option LocalEventRecord) :
    countAifix (firstAttempt env mcal action g0 merged t).2.2 = 0 := by
  unfold firstAttempt
  split
  · rcases hm : env.moveEvent (action.sourceCalendarId.getD "")
        (action.sourceEventId.getD "") mcal with m | newId
    · simp [hm, countAifix]
    · rcases hu : env.updateEvent mcal newId merged with m | u <;>
        simp [hm, hu, countAifix]
  · have hps := countAifix_performSync env mcal action.type g0 merged t
    split <;> rename_i heq <;> rw [heq] at hps <;> simpa using hps

/-- C4: for every single execution of an accepted action, the AI repair
call (fixActionWithAI) is invoked at most once: exactly once when the
initial remote write throws, and never when the initial remote write
succeeds; after a failure of the repaired retry no further repair or remote
attempt is made in that execution (the trace is exactly the first attempt,
one repair call, and the calls of the single retry). -/
theorem ai_repair_at_most_once
    (env : Env) (fresh : Fresh) (snapshot : List LocalEventRecord)
    (s : AppState) (action : ProposedAction) (index : Int) (isAuto : Bool) :
    countAifix (handleExecuteAction env fresh snapshot s action index isAuto).2
      ≤ 1 ∧
    ∀ merged, s.isAuthenticated = true → env.tokenPresent = true →
      mergedOf action (findTarget snapshot action) = some merged →
      ((firstAttempt env s.managedCalendarId action
          (initialGcal (findTarget snapshot action) fresh.nowMs) merged
          (findTarget snapshot action)).1 = none →
        countAifix (handleExecuteAction env fresh snapshot s action index
          isAuto).2 = 0) ∧
      (∀ m1, (firstAttempt env s.managedCalendarId action
          (initialGcal (findTarget snapshot action) fresh.nowMs) merged
          (findTarget snapshot action)).1 = some m1 →
        ∃ rest,
          (handleExecuteAction env fresh snapshot s action index isAuto).2 =
            (firstAttempt env s.managedCalendarId action
              (initialGcal (findTarget snapshot action) fresh.nowMs) merged
              (findTarget snapshot action)).2.2 ++ [Call.aifix merged m1] ++ rest
          ∧ countAifix rest = 0) := by
  constructor
  · -- at most one repair call on every path
    rcases hmo : mergedOf action (findTarget snapshot action) with _ | merged
    · rw [handleExecuteAction_of_none hmo]
      simp [countAifix]
    · rw [handleExecuteAction_trace hmo]
      by_cases hA : (s.isAuthenticated && env.tokenPresent) = true
      · rcases hfa : firstAttempt env s.managedCalendarId action
            (initialGcal (findTarget snapshot action) fresh.nowMs) merged
            (findTarget snapshot action) with ⟨e1, g1, tr1⟩
        have htr1 : countAifix tr1 = 0 := by
          have := countAifix_firstAttempt env s.managedCalendarId action
            (initialGcal (findTarget snapshot action) fresh.nowMs) merged
            (findTarget snapshot action)
          rw [hfa] at this
          simpa using this
        rcases e1 with _ | m1
        · simp [execOutcome, remotePhase, hA, hmo, hfa, htr1]
        · rcases hfix : env.fixWithAI merged m1 with m2 | fixed
          · simp [execOutcome, remotePhase, hA, hmo, hfa, hfix,
              countAifix_append, countAifix_one_aifix, htr1]
          · rcases hps : performSync env s.managedCalendarId action.type g1
                (mergeData merged fixed) (findTarget snapshot action)
              with ⟨r2, tr2⟩
            have htr2 : countAifix tr2 = 0 := by
              have := countAifix_performSync env s.managedCalendarId action.type
                g1 (mergeData merged fixed) (findTarget snapshot action)
              rw [hps] at this
              simpa using this
            rcases r2 with m2 | g2 <;>
              simp [execOutcome, remotePhase, hA, hmo, hfa, hfix, hps,
                countAifix_append, countAifix_one_aifix, countAifix_cons_aifix,
                htr1, htr2]
      · have hA' : (s.isAuthenticated && env.tokenPresent) = false := by
          cases h : (s.isAuthenticated && env.tokenPresent)
          · rfl
          · exact absurd h hA
        simp [execOutcome, remotePhase, hA', hmo, countAifix]
  · intro merged hauth htok hmo
    have hA : (s.isAuthenticated && env.tokenPresent) = true := by
      rw [hauth, htok]; rfl
    rcases hfa : firstAttempt env s.managedCalendarId action
        (initialGcal (findTarget snapshot action) fresh.nowMs) merged
        (findTarget snapshot action) with ⟨e1, g1, tr1⟩
    constructor
    · intro h1
      simp only at h1
      subst h1
      rw [handleExecuteAction_trace hmo]
      have := countAifix_firstAttempt env s.managedCalendarId action
        (initialGcal (findTarget snapshot action) fresh.nowMs) merged
        (findTarget snapshot action)
      rw [hfa] at this
      simp only at this
      simp [execOutcome, remotePhase, hA, hmo, hfa, this]
    · intro m1 h1
      simp only at h1
      subst h1
      rw [handleExecuteAction_trace hmo]
      rcases hfix : env.fixWithAI merged m1 with m2 | fixed
      · refine ⟨[], ?_, by simp [countAifix]⟩
        simp [execOutcome, remotePhase, hA, hmo, hfa, hfix]
      · rcases hps : performSync env s.managedCalendarId action.type g1
            (mergeData merged fixed) (findTarget snapshot action) with ⟨r2, tr2⟩
        have htr2 : countAifix tr2 = 0 := by
          have := countAifix_performSync env s.managedCalendarId action.type g1
            (mergeData merged fixed) (findTarget snapshot action)
          rw [hps] at this
          simpa using this
        refine ⟨tr2, ?_, htr2⟩
        rcases r2 with m2 | g2 <;>
          simp [execOutcome, remotePhase, hA, hmo, hfa, hfix, hps]

/-- Witness for C4: with every write failing, the trace is exactly the
failed create, one repair call, and nothing after the failed retry. -/
theorem ai_repair_at_most_once_witness :
    countAifix (handleExecuteAction envFailW freshW sW.localEvents sW actCreateW
      0 false).2 ≤ 1 ∧
    ∃ rest,
      (handleExecuteAction envFailW freshW sW.localEvents sW actCreateW 0
        false).2 =
        (firstAttempt envFailW sW.managedCalendarId actCreateW
          (initialGcal (findTarget sW.localEvents actCreateW) freshW.nowMs) dW
          (findTarget sW.localEvents actCreateW)).2.2
          ++ [Call.aifix dW "boom"] ++ rest
        ∧ countAifix rest = 0 := by
  have h := ai_repair_at_most_once envFailW freshW sW.localEvents sW actCreateW
    0 false
  exact ⟨h.1, (h.2 dW rfl rfl (by decide)).2 "boom" (by decide)⟩

/-! ### C5 -/

theorem importFold_length_ge (uuidAt : Nat → String) (nowIso : String) :
    ∀ (evs : List GEvent) (acc : List LocalEventRecord),
      acc.length ≤ (importFold uuidAt nowIso evs acc).length := by
  intro evs
  induction evs with
  | nil => intro acc; simp [importFold]
  | cons e rest ih =>
    intro acc
    rw [importFold]
    split
    · exact ih acc
    · calc acc.length
          ≤ (acc ++ [importEvent (uuidAt acc.length) nowIso e]).length := by simp
        _ ≤ _ := ih _

theorem importFold_id_preserved (uuidAt : Nat → String) (nowIso : String) :
    ∀ (evs : List GEvent) (acc : List LocalEventRecord), ∀ r ∈ acc,
      ∃ q ∈ importFold uuidAt nowIso evs acc, q.localId = r.localId := by
  intro evs
  induction evs with
  | nil => intro acc r hr; exact ⟨r, by simpa [importFold] using hr, rfl⟩
  | cons e rest ih =>
    intro acc r hr
    rw [importFold]
    split
    · exact ih acc r hr
    · exact ih _ r (List.mem_append_left _ hr)

/-- C5: every operation that mutates the ledger (action execution creating
or updating a record, and cloud import) serializes the full ledger array to
browser-local storage in the same step, and no operation removes a record:
the ledger length is non-decreasing and every localId present before an
operation is still present after it. -/
theorem ledger_persisted_and_never_shrinks
    (env : Env) (fresh : Fresh) (s : AppState) (action : ProposedAction)
    (index : Int) (isAuto : Bool) (uuidAt : Nat → String)
    (nowIso tmin tmax : String) :
    ((handleExecuteAction env fresh s.localEvents s action index
        isAuto).1.localEvents ≠ s.localEvents →
      (handleExecuteAction env fresh s.localEvents s action index
        isAuto).1.storage =
      (handleExecuteAction env fresh s.localEvents s action index
        isAuto).1.localEvents) ∧
    s.localEvents.length ≤ (handleExecuteAction env fresh s.localEvents s action
      index isAuto).1.localEvents.length ∧
    (∀ r ∈ s.localEvents,
      ∃ q ∈ (handleExecuteAction env fresh s.localEvents s action index
        isAuto).1.localEvents, q.localId = r.localId) ∧
    ((handleSyncFromCloud env uuidAt nowIso tmin tmax s).localEvents
        ≠ s.localEvents →
      (handleSyncFromCloud env uuidAt nowIso tmin tmax s).storage =
      (handleSyncFromCloud env uuidAt nowIso tmin tmax s).localEvents) ∧
    s.localEvents.length ≤
      (handleSyncFromCloud env uuidAt nowIso tmin tmax s).localEvents.length ∧
    (∀ r ∈ s.localEvents,
      ∃ q ∈ (handleSyncFromCloud env uuidAt nowIso tmin tmax s).localEvents,
        q.localId = r.localId) := by
  have hexec : ((handleExecuteAction env fresh s.localEvents s action index
        isAuto).1.localEvents ≠ s.localEvents →
      (handleExecuteAction env fresh s.localEvents s action index
        isAuto).1.storage =
      (handleExecuteAction env fresh s.localEvents s action index
        isAuto).1.localEvents) ∧
      s.localEvents.length ≤ (handleExecuteAction env fresh s.localEvents s
        action index isAuto).1.localEvents.length ∧
      ∀ r ∈ s.localEvents,
        ∃ q ∈ (handleExecuteAction env fresh s.localEvents s action index
          isAuto).1.localEvents, q.localId = r.localId := by
    rcases hmo : mergedOf action (findTarget s.localEvents action) with _ | merged
    · rw [handleExecuteAction_of_none hmo]
      exact ⟨fun h => absurd rfl h, le_refl _, fun r hr => ⟨r, hr, rfl⟩⟩
    · refine ⟨fun _ => handleExecuteAction_storage hmo, ?_, ?_⟩
      · rw [handleExecuteAction_localEvents hmo]
        exact updateLocal_length_ge _ _ _ _ _ _ _ _ _ _
      · intro r hr
        rw [handleExecuteAction_localEvents hmo]
        exact updateLocal_id_preserved _ _ _ _ _ _ _ _ _ _ r hr
  have hsync : ((handleSyncFromCloud env uuidAt nowIso tmin tmax s).localEvents
        ≠ s.localEvents →
      (handleSyncFromCloud env uuidAt nowIso tmin tmax s).storage =
      (handleSyncFromCloud env uuidAt nowIso tmin tmax s).localEvents) ∧
      s.localEvents.length ≤
        (handleSyncFromCloud env uuidAt nowIso tmin tmax s).localEvents.length ∧
      ∀ r ∈ s.localEvents,
        ∃ q ∈ (handleSyncFromCloud env uuidAt nowIso tmin tmax s).localEvents,
          q.localId = r.localId := by
    by_cases hauth : s.isAuthenticated = true
    · rcases hle : env.listEvents s.managedCalendarId tmin tmax with m | events
      · have hs : handleSyncFromCloud env uuidAt nowIso tmin tmax s =
            { s with errorMsg := some ("Failed to sync from cloud: " ++ m) } := by
          simp [handleSyncFromCloud, hauth, hle]
        rw [hs]
        exact ⟨fun h => absurd rfl h, le_refl _, fun r hr => ⟨r, hr, rfl⟩⟩
      · have hs : handleSyncFromCloud env uuidAt nowIso tmin tmax s =
            { s with
              localEvents := importFold uuidAt nowIso events s.localEvents
              storage := importFold uuidAt nowIso events s.localEvents } := by
          simp [handleSyncFromCloud, hauth, hle]
        rw [hs]
        exact ⟨fun _ => rfl, importFold_length_ge _ _ _ _,
          fun r hr => importFold_id_preserved _ _ _ _ r hr⟩
    · have hs : handleSyncFromCloud env uuidAt nowIso tmin tmax s = s := by
        simp [handleSyncFromCloud, hauth]
      rw [hs]
      exact ⟨fun h => absurd rfl h, le_refl _, fun r hr => ⟨r, hr, rfl⟩⟩
  exact ⟨hexec.1, hexec.2.1, hexec.2.2, hsync.1, hsync.2.1, hsync.2.2⟩

/-- A cloud event not yet present locally, for the import witness. -/
def gevCloudW : GEvent :=
  { id := "gid-cloud", summary := some "Cloud ev"
    start := { dateTime := some "2024-01-05T10:00:00" }
    finish := { dateTime := some "2024-01-05T11:00:00" } }

/-- An environment whose listing returns one cloud event. -/
def envListW : Env :=
  { envOkW with listEvents := fun _ _ _ => .ok [gevCloudW] }

/-- UUID supply for the cloud-import witness. -/
def uuidAtW : Nat → String := fun n => "cloud-uuid-" ++ toString n

/-- Witness for C5: a CREATE execution and a growing cloud import both
persist the new ledger, never dropping the pre-existing record. -/
theorem ledger_persisted_and_never_shrinks_witness :
    (handleExecuteAction envListW freshW sW.localEvents sW actCreateW 0
      false).1.storage =
    (handleExecuteAction envListW freshW sW.localEvents sW actCreateW 0
      false).1.localEvents ∧
    sW.localEvents.length ≤ (handleExecuteAction envListW freshW sW.localEvents
      sW actCreateW 0 false).1.localEvents.length ∧
    (handleSyncFromCloud envListW uuidAtW "now" "tmin" "tmax" sW).storage =
    (handleSyncFromCloud envListW uuidAtW "now" "tmin" "tmax" sW).localEvents ∧
    (∃ q ∈ (handleSyncFromCloud envListW uuidAtW "now" "tmin" "tmax"
      sW).localEvents, q.localId = recW.localId) := by
  have h := ledger_persisted_and_never_shrinks envListW freshW sW actCreateW 0
    false uuidAtW "now" "tmin" "tmax"
  exact ⟨h.1 (by decide), h.2.1, h.2.2.2.1 (by decide),
    h.2.2.2.2.2 recW (by decide)⟩

/-! ### C6 -/

/-- C6: if the extraction call (analyzeMessage) fails, no partial result is
retained: the list of proposed actions is empty after the analysis attempt,
the ledger (and its stored copy) is unchanged, and the error message is
surfaced to the user. -/
theorem extraction_failure_no_partial_result
    (env : Env) (freshAt : Nat → Fresh) (s : AppState) (m : String)
    (hin : jsTrim s.inputText ≠ "")
    (hfail : env.analyze s.inputText s.localEvents = .error m) :
    (handleAnalyze env freshAt s).proposedActions = [] ∧
    (handleAnalyze env freshAt s).localEvents = s.localEvents ∧
    (handleAnalyze env freshAt s).storage = s.storage ∧
    (handleAnalyze env freshAt s).errorMsg =
      some (if m = "" then "Failed to analyze text." else m) := by
  refine ⟨?_, ?_, ?_, ?_⟩ <;> simp [handleAnalyze, hin, hfail]

/-- Witness for C6 at a concrete failing extraction. -/
theorem extraction_failure_no_partial_result_witness :
    (handleAnalyze envFailW (fun _ => freshW) sW).proposedActions = [] ∧
    (handleAnalyze envFailW (fun _ => freshW) sW).localEvents = sW.localEvents ∧
    (handleAnalyze envFailW (fun _ => freshW) sW).storage = sW.storage ∧
    (handleAnalyze envFailW (fun _ => freshW) sW).errorMsg =
      some (if "extract failed" = "" then "Failed to analyze text."
        else "extract failed") :=
  extraction_failure_no_partial_result envFailW (fun _ => freshW) sW
    "extract failed" (by decide) rfl

/-! ### C7 -/

/-- The per-record invariant: a record whose `gcalId` carries the local
placeholder prefix is not marked synced. -/
def okRec (r : LocalEventRecord) : Bool :=
  !(strStartsWith r.gcalId "manual-link-") || !r.synced

/-- The ledger invariant of C7. -/
def placeholderInv (l : List LocalEventRecord) : Bool := l.all okRec

/-- Environment assumptions making the remote service honest about
identifiers: a remote operation never succeeds for, nor returns, an
identifier bearing the locally generated placeholder prefix. -/
structure HonestRemote (env : Env) : Prop where
  move_real : ∀ a b c id, env.moveEvent a b c = .ok id →
    strStartsWith id "manual-link-" = false
  create_real : ∀ c d id, env.createEvent c d = .ok id →
    strStartsWith id "manual-link-" = false
  update_known : ∀ c id d u, env.updateEvent c id d = .ok u →
    strStartsWith id "manual-link-" = false
  list_real : ∀ c a b evs, env.listEvents c a b = .ok evs →
    ∀ e ∈ evs, strStartsWith e.id "manual-link-" = false

theorem performSync_ok_real {env : Env} (h : HonestRemote env)
    {mcal : String} {type : ActionType} {g : String} {d : CalendarEventData}
    {t : Option LocalEventRecord} {id : String} {tr : List Call}
    (hps : performSync env mcal type g d t = (.ok id, tr)) :
    strStartsWith id "manual-link-" = false := by
  unfold performSync at hps
  by_cases hc : type = ActionType.CREATE ∨
      type = ActionType.UPDATE ∧ strStartsWith g "manual-link-" = true
  · rw [if_pos hc] at hps
    rcases hcr : env.createEvent mcal d with m | id0
    · simp [hcr] at hps
    · simp only [hcr, Prod.mk.injEq, Except.ok.injEq] at hps
      exact hps.1 ▸ h.create_real _ _ _ hcr
  · rw [if_neg hc] at hps
    rcases hu : env.updateEvent mcal g d with m | u
    · simp only [hu] at hps
      by_cases h4 : contains404 m = true
      · rw [if_pos h4] at hps
        rcases hl : env.listEvents mcal
            (env.dayWindow (jsOrS (t.bind fun x => x.startTime) d.startTime)).1
            (env.dayWindow (jsOrS (t.bind fun x => x.startTime) d.startTime)).2
          with m2 | evs
        · simp [hl] at hps
        · rcases hf : evs.find? (fun e =>
              e.summary == jsOrS (t.bind fun x => x.summary) d.summary)
            with _ | mtch
          · rcases hcr : env.createEvent mcal d with m3 | id0
            · simp [hl, hf, hcr] at hps
            · simp only [hl, hf, hcr, Prod.mk.injEq, Except.ok.injEq] at hps
              exact hps.1 ▸ h.create_real _ _ _ hcr
          · rcases hu2 : env.updateEvent mcal mtch.id d with m3 | u2
            · simp [hl, hf, hu2] at hps
            · simp only [hl, hf, hu2, Prod.mk.injEq, Except.ok.injEq] at hps
              exact hps.1 ▸ h.update_known _ _ _ _ hu2
      · rw [if_neg h4] at hps
        simp at hps
    · simp only [hu, Prod.mk.injEq, Except.ok.injEq] at hps
      exact hps.1 ▸ h.update_known _ _ _ _ hu

theorem firstAttempt_ok_real {env : Env} (h : HonestRemote env)
    {mcal : String} {action : ProposedAction} {g0 : String}
    {merged : CalendarEventData} {t : Option LocalEventRecord}
    {g : String} {tr : List Call}
    (hfa : firstAttempt env mcal action g0 merged t = (none, g, tr)) :
    strStartsWith g "manual-link-" = false := by
  unfold firstAttempt at hfa
  split at hfa
  · rcases hmv : env.moveEvent (action.sourceCalendarId.getD "")
        (action.sourceEventId.getD "") mcal with m | newId
    · simp [hmv] at hfa
    · rcases hu : env.updateEvent mcal newId merged with m | u
      · simp [hmv, hu] at hfa
      · simp only [hmv, hu, Prod.mk.injEq] at hfa
        obtain ⟨-, h2, -⟩ := hfa
        exact h2 ▸ h.move_real _ _ _ _ hmv
  · rcases hps : performSync env mcal action.type g0 merged t with ⟨r2, tr2⟩
    rcases r2 with m | id0
    · simp [hps] at hfa
    · simp only [hps, Prod.mk.injEq] at hfa
      obtain ⟨-, h2, -⟩ := hfa
      exact h2 ▸ performSync_ok_real h hps

theorem remotePhase_synced_real {env : Env} (h : HonestRemote env)
    {mcal : String} {action : ProposedAction} {authed : Bool} {g0 : String}
    {merged : CalendarEventData} {t : Option LocalEventRecord} {isAuto : Bool}
    (hs : (remotePhase env mcal action authed g0 merged t isAuto).synced = true) :
    strStartsWith (remotePhase env mcal action authed g0 merged t isAuto).gcal
      "manual-link-" = false := by
  by_cases ha : authed = true
  · rcases hfa : firstAttempt env mcal action g0 merged t with ⟨e1, g1, tr1⟩
    rcases e1 with _ | m1
    · have := firstAttempt_ok_real h hfa
      simpa [remotePhase, ha, hfa] using this
    · rcases hfix : env.fixWithAI merged m1 with m2 | fixed
      · exfalso; simp [remotePhase, ha, hfa, hfix] at hs
      · rcases hps : performSync env mcal action.type g1 (mergeData merged fixed)
            t with ⟨r2, tr2⟩
        rcases r2 with m2 | g2
        · exfalso; simp [remotePhase, ha, hfa, hfix, hps] at hs
        · have := performSync_ok_real h hps
          simpa [remotePhase, ha, hfa, hfix, hps] using this
  · have ha' : authed = false := by
      cases authed
      · rfl
      · exact absurd rfl ha
    exfalso
    simp [remotePhase, ha'] at hs

theorem updateLocal_inv (type : ActionType) (d : CalendarEventData)
    (gcalId : String) (synced : Bool) (error : Option String)
    (targetLocalId : Option String) (uuid nowIso inputText : String)
    (prev : List LocalEventRecord)
    (hrec : synced = true → strStartsWith gcalId "manual-link-" = false)
    (hprev : placeholderInv prev = true) :
    placeholderInv (updateLocal type d gcalId synced error targetLocalId
      uuid nowIso inputText prev) = true := by
  unfold updateLocal
  split
  · rw [placeholderInv, List.all_append]
    refine (Bool.and_eq_true _ _).mpr ⟨hprev, ?_⟩
    simp only [List.all_cons, List.all_nil, Bool.and_true]
    cases hsy : synced
    · simp [okRec, recFromData]
    · simp [okRec, recFromData, hrec hsy]
  · split
    · rw [placeholderInv, List.all_eq_true]
      intro e he
      obtain ⟨x, hx, rfl⟩ := List.mem_map.mp he
      split
      · cases hsy : synced
        · simp [okRec, applyUpd]
        · simp [okRec, applyUpd, hrec hsy]
      · exact List.all_eq_true.mp hprev x hx
    · exact hprev

theorem importFold_inv (uuidAt : Nat → String) (nowIso : String) :
    ∀ (evs : List GEvent) (acc : List LocalEventRecord),
      (∀ e ∈ evs, strStartsWith e.id "manual-link-" = false) →
      placeholderInv acc = true →
      placeholderInv (importFold uuidAt nowIso evs acc) = true := by
  intro evs
  induction evs with
  | nil => intro acc _ hacc; simpa [importFold] using hacc
  | cons e rest ih =>
    intro acc hevs hacc
    rw [importFold]
    split
    · exact ih acc (fun x hx => hevs x (List.mem_cons_of_mem _ hx)) hacc
    · refine ih _ (fun x hx => hevs x (List.mem_cons_of_mem _ hx)) ?_
      rw [placeholderInv, List.all_append]
      refine (Bool.and_eq_true _ _).mpr ⟨hacc, ?_⟩
      simp only [List.all_cons, List.all_nil, Bool.and_true]
      simp [okRec, importEvent, hevs e (List.mem_cons_self _ _)]

/-- C7: after every operation, a ledger record whose gcalId begins with the
locally generated placeholder prefix 'manual-link-' has synced = false (a
record marked synced always holds a real remote identifier), assuming the
remote service neither accepts nor returns placeholder identifiers. -/
theorem placeholder_invariant_preserved
    (env : Env) (fresh : Fresh) (snapshot : List LocalEventRecord)
    (s : AppState) (action : ProposedAction) (index : Int) (isAuto : Bool)
    (uuidAt : Nat → String) (nowIso tmin tmax : String)
    (h : HonestRemote env)
    (hinv : placeholderInv s.localEvents = true) :
    placeholderInv (handleExecuteAction env fresh snapshot s action index
      isAuto).1.localEvents = true ∧
    placeholderInv (handleSyncFromCloud env uuidAt nowIso tmin tmax
      s).localEvents = true := by
  constructor
  · rcases hmo : mergedOf action (findTarget snapshot action) with _ | merged
    · rw [handleExecuteAction_of_none hmo]
      exact hinv
    · rw [handleExecuteAction_localEvents hmo]
      refine updateLocal_inv _ _ _ _ _ _ _ _ _ _ ?_ hinv
      intro hsy
      have := remotePhase_synced_real h (by simpa [execOutcome] using hsy)
      simpa [execOutcome] using this
  · by_cases hauth : s.isAuthenticated = true
    · rcases hle : env.listEvents s.managedCalendarId tmin tmax with m | events
      · have hs : handleSyncFromCloud env uuidAt nowIso tmin tmax s =
            { s with errorMsg := some ("Failed to sync from cloud: " ++ m) } := by
          simp [handleSyncFromCloud, hauth, hle]
        rw [hs]
        exact hinv
      · have hs : (handleSyncFromCloud env uuidAt nowIso tmin tmax s).localEvents
            = importFold uuidAt nowIso events s.localEvents := by
          simp [handleSyncFromCloud, hauth, hle]
        rw [hs]
        exact importFold_inv _ _ _ _ (h.list_real _ _ _ _ hle) hinv
    · have hs : handleSyncFromCloud env uuidAt nowIso tmin tmax s = s := by
        simp [handleSyncFromCloud, hauth]
      rw [hs]
      exact hinv

/-- An honest environment for the C7 witness: updates of placeholder ids
404, and returned ids carry no placeholder prefix. -/
def envHonestW : Env :=
  { envOkW with
    updateEvent := fun _ id _ =>
      if strStartsWith id "manual-link-" then .error "404 Not Found" else .ok () }

/-- Witness for C7 at a concrete CREATE execution and cloud import. -/
theorem placeholder_invariant_preserved_witness :
    placeholderInv (handleExecuteAction envHonestW freshW sW.localEvents sW
      actCreateW 0 false).1.localEvents = true ∧
    placeholderInv (handleSyncFromCloud envHonestW uuidAtW "now" "tmin" "tmax"
      sW).localEvents = true := by
  refine placeholder_invariant_preserved envHonestW freshW sW.localEvents sW
    actCreateW 0 false uuidAtW "now" "tmin" "tmax" ?_ (by decide)
  constructor
  · intro a b c id hmv
    injection hmv with h1
    rw [← h1]
    decide
  · intro c d id hcr
    injection hcr with h1
    rw [← h1]
    decide
  · intro c id d u hup
    by_cases hp : strStartsWith id "manual-link-" = true
    · exfalso
      simp [envHonestW, envOkW, hp] at hup
    · simpa using hp
  · intro c a b evs hl e he
    injection hl with h1
    rw [← h1] at he
    simp at he

/-! ### C8 -/

/-- C8: for every event payload sent to the remote calendar by createEvent
or updateEvent, a start or end time string that matches exactly the shape
YYYY-MM-DD is encoded as an all-day date field, and every other string is
encoded as a dateTime field carrying the local time zone; the same field is
never given both a date and a dateTime (the two encodings are exclusive
constructors of `GTime`). -/
theorem remote_payload_date_vs_dateTime (tz : String) (d : CalendarEventData) :
    (∀ s, d.startTime = some s →
      (createEventResource tz d).start =
        some (if isDateOnlyShape s then GTime.date s else GTime.dateTime s tz)) ∧
    (∀ s, d.endTime = some s →
      (createEventResource tz d).finish =
        some (if isDateOnlyShape s then GTime.date s else GTime.dateTime s tz)) ∧
    (∀ s, d.startTime = some s → s ≠ "" →
      (updateEventResource tz d).start =
        some (if isDateOnlyShape s then GTime.date s else GTime.dateTime s tz)) ∧
    (∀ s, d.endTime = some s → s ≠ "" →
      (updateEventResource tz d).finish =
        some (if isDateOnlyShape s then GTime.date s else GTime.dateTime s tz)) := by
  refine ⟨?_, ?_, ?_, ?_⟩
  · intro s hs
    simp [createEventResource, formatTimeOpt, formatTime, hs]
  · intro s hs
    simp [createEventResource, formatTimeOpt, formatTime, hs]
  · intro s hs hne
    simp [updateEventResource, formatTime, hs, truthyS, hne]
  · intro s hs hne
    simp [updateEventResource, formatTime, hs, truthyS, hne]

/-- Event data with an all-day start and a timed end. -/
def dMixedW : CalendarEventData :=
  { startTime := some "2024-01-02", endTime := some "2024-01-02T11:00:00" }

/-- Witness for C8: the all-day string becomes a date field and the timed
string a dateTime field with the time zone. -/
theorem remote_payload_date_vs_dateTime_witness :
    (createEventResource "Europe/Paris" dMixedW).start =
      some (GTime.date "2024-01-02") ∧
    (createEventResource "Europe/Paris" dMixedW).finish =
      some (GTime.dateTime "2024-01-02T11:00:00" "Europe/Paris") ∧
    (updateEventResource "Europe/Paris" dMixedW).start =
      some (GTime.date "2024-01-02") := by
  have h := remote_payload_date_vs_dateTime "Europe/Paris" dMixedW
  have h1 := h.1 "2024-01-02" rfl
  have h2 := h.2.1 "2024-01-02T11:00:00" rfl
  have h3 := h.2.2.1 "2024-01-02" rfl (by decide)
  rw [h1, h2, h3]
  refine ⟨by decide, by decide, by decide⟩

/-! ### C9 -/

/-- C9: during analysis, when the user is authenticated, every extracted
CREATE action with event data whose start time lies within one hour of an
existing event on the primary calendar (as returned by the ±2h listing) is
converted into a MOVE action carrying sourceCalendarId 'primary' and the
matched event's id, with the matched event's summary substituted into the
event data; a CREATE action with no such nearby primary-calendar event, and
every non-CREATE action, is passed through unchanged. -/
theorem duplicate_detection_move_conversion
    (env : Env) (freshAt : Nat → Fresh) (s : AppState)
    (action : ProposedAction) :
    (∀ d t evs, action.type = ActionType.CREATE → action.eventData = some d →
      d.startTime.bind (fun x => env.timeMs x) = some t →
      env.listEvents "primary" (env.hourWindow t).1 (env.hourWindow t).2
        = .ok evs →
      ((∀ e ∈ evs, nearStart env t e = false) → detectMove env action = action) ∧
      (∀ mtch, evs.find? (fun e => nearStart env t e) = some mtch →
        detectMove env action =
          { action with
            type := ActionType.MOVE
            sourceCalendarId := some "primary"
            sourceEventId := some mtch.id
            reasoning := action.reasoning ++ moveNote mtch.summary
            eventData := some { d with summary := mtch.summary } })) ∧
    (action.type ≠ ActionType.CREATE → detectMove env action = action) ∧
    (action.eventData = none → detectMove env action = action) ∧
    (s.isAuthenticated = true → s.autoTrust = false → jsTrim s.inputText ≠ "" →
      ∀ acts, env.analyze s.inputText s.localEvents = .ok acts →
        (handleAnalyze env freshAt s).proposedActions =
          acts.map (detectMove env)) := by
  refine ⟨?_, ?_, ?_, ?_⟩
  · intro d t evs hty hd hpt hle
    constructor
    · intro hnone
      have hfound : evs.find? (fun e => nearStart env t e) = none :=
        List.find?_eq_none.mpr (fun e he => by simp [hnone e he])
      simp [detectMove, hty, hd, hpt, hle, hfound]
    · intro mtch hfound
      simp [detectMove, hty, hd, hpt, hle, hfound]
  · intro hty
    simp [detectMove, hty]
  · intro hd
    simp [detectMove, hd]
  · intro hauth hat hin acts hok
    simp [handleAnalyze, hin, hok, hauth, hat]

/-- A primary-calendar event starting within one hour, for the C9 witness. -/
def gevNearW : GEvent :=
  { id := "gid-near", summary := some "Near ev"
    start := { dateTime := some "2024-01-02T10:30:00" } }

/-- An environment whose primary listing returns the nearby event. -/
def envNearW : Env :=
  { envOkW with
    timeMs := fun _ => some 1000
    listEvents := fun _ _ _ => .ok [gevNearW] }

/-- Witness for C9: the CREATE action is converted to a MOVE targeting the
nearby primary event, and an UPDATE action passes through unchanged. -/
theorem duplicate_detection_move_conversion_witness :
    detectMove envNearW actCreateW =
      { actCreateW with
        type := ActionType.MOVE
        sourceCalendarId := some "primary"
        sourceEventId := some "gid-near"
        reasoning := actCreateW.reasoning ++ moveNote (some "Near ev")
        eventData := some { dW with summary := some "Near ev" } } ∧
    detectMove envNearW actUpdateW = actUpdateW := by
  have h1 := duplicate_detection_move_conversion envNearW (fun _ => freshW) sW
    actCreateW
  have h2 := duplicate_detection_move_conversion envNearW (fun _ => freshW) sW
    actUpdateW
  exact ⟨(h1.1 dW 1000 [gevNearW] rfl rfl (by decide) rfl).2 gevNearW (by decide),
    h2.2.1 (by decide)⟩

/-! ### C10 -/

/-- C10: when the remote update of an accepted UPDATE action fails with a
404 (an error message containing '404', as `fetchWithAuth` raises exactly
'404 Not Found' for HTTP 404), performSync searches the managed calendar for
an event on the same day as the target record whose summary equals the
target record's summary; if one is found it updates that event and returns
its id as the record's new gcalId, otherwise it creates a new remote event
and returns the new id; errors whose message does not contain '404' are
rethrown without this recovery. -/
theorem update_404_recovery (env : Env) (mcal gcalId : String)
    (data : CalendarEventData) (target : Option LocalEventRecord) (m : String)
    (hman : strStartsWith gcalId "manual-link-" = false)
    (hupd : env.updateEvent mcal gcalId data = .error m) :
    (contains404 m = false →
      performSync env mcal ActionType.UPDATE gcalId data target =
        (.error m, [.upd mcal gcalId data])) ∧
    (contains404 m = true →
      ∀ evs, env.listEvents mcal
          (env.dayWindow (jsOrS (target.bind fun r => r.startTime)
            data.startTime)).1
          (env.dayWindow (jsOrS (target.bind fun r => r.startTime)
            data.startTime)).2
          = .ok evs →
        (∀ mtch, evs.find? (fun e =>
            e.summary == jsOrS (target.bind fun r => r.summary) data.summary)
            = some mtch →
          ∀ u, env.updateEvent mcal mtch.id data = .ok u →
          (performSync env mcal ActionType.UPDATE gcalId data target).1
            = .ok mtch.id) ∧
        (evs.find? (fun e =>
            e.summary == jsOrS (target.bind fun r => r.summary) data.summary)
            = none →
          ∀ nid, env.createEvent mcal data = .ok nid →
          (performSync env mcal ActionType.UPDATE gcalId data target).1
            = .ok nid)) := by
  constructor
  · intro h4
    simp [performSync, hman, hupd, h4]
  · intro h4 evs hle
    constructor
    · intro mtch hfound u hup2
      simp [performSync, hman, hupd, h4, hle, hfound, hup2]
    · intro hfound nid hcr
      simp [performSync, hman, hupd, h4, hle, hfound, hcr]

/-- A managed-calendar event on the target day with the target's summary. -/
def gevDayW : GEvent :=
  { id := "gid-day", summary := some "Meet Bob"
    start := { dateTime := some "2024-01-02T10:00:00" } }

/-- An environment where updating the stale id 404s but the day listing
finds the event under a new id. -/
def env404W : Env :=
  { envOkW with
    updateEvent := fun _ id _ =>
      if id = "gid-1" then .error "404 Not Found" else .ok ()
    listEvents := fun _ _ _ => .ok [gevDayW] }

/-- Witness for C10: the 404 recovery finds the same-day event with the
matching summary and returns its id. -/
theorem update_404_recovery_witness :
    (performSync env404W "mcal" ActionType.UPDATE "gid-1" dW (some recW)).1
      = .ok "gid-day" := by
  have h := update_404_recovery env404W "mcal" "gid-1" dW (some recW)
    "404 Not Found" (by decide) rfl
  exact (h.2 (by decide) [gevDayW] rfl).1 gevDayW (by decide) () rfl

end SmartCalendar
